import Mathlib

/-!
Verification of the VEX Pushback robot simulator core (drivetrain +
manipulation state machine + collision filter + fixed-step frame loop).

The C++ sources are shallowly embedded: machine floats are modelled as
exact rationals, PhysX handles as plain data, and the nondeterministic
environment (physics stepping results, joint-creation success) as
explicit parameters of a step relation.  Distance comparisons from the
source (`dist > INTAKE_RANGE`, `dist < bestDist`) are represented by the
equivalent comparisons of squared magnitudes: squaring is strictly
monotone on nonnegative reals, so the branch taken is identical.
-/

/-- 3-component vector (PxVec3 / glm::vec3), with exact coordinates. -/
structure Vec3 where
  x : ℚ
  y : ℚ
  z : ℚ
deriving DecidableEq

/-- The zero vector, PxVec3(0). -/
def Vec3.zero : Vec3 := ⟨0, 0, 0⟩

/-- Componentwise sum. -/
def Vec3.add (a b : Vec3) : Vec3 := ⟨a.x + b.x, a.y + b.y, a.z + b.z⟩

/-- Componentwise difference. -/
def Vec3.sub (a b : Vec3) : Vec3 := ⟨a.x - b.x, a.y - b.y, a.z - b.z⟩

/-- Scalar multiple. -/
def Vec3.smul (k : ℚ) (v : Vec3) : Vec3 := ⟨k * v.x, k * v.y, k * v.z⟩

/-- Squared Euclidean magnitude; `v.magnitude()` compares are modelled on this. -/
def Vec3.magSq (v : Vec3) : ℚ := v.x * v.x + v.y * v.y + v.z * v.z

/-- Squared distance between two points. -/
def distSq (a b : Vec3) : ℚ := (Vec3.sub a b).magSq

/-- Quaternion (PxQuat / glm::quat). -/
structure Quat where
  w : ℚ
  x : ℚ
  y : ℚ
  z : ℚ
deriving DecidableEq

/-- The identity quaternion (PxTransform with no explicit q). -/
def Quat.one : Quat := ⟨1, 0, 0, 0⟩

/-- PxQuat::rotate, the PhysX formula for rotating a vector by a unit
quaternion: with u the vector part, 2*(w*w - 1/2)*v + 2*w*(u x v) + 2*u*(u.v). -/
def Quat.rotate (q : Quat) (v : Vec3) : Vec3 :=
  let vx := 2 * v.x
  let vy := 2 * v.y
  let vz := 2 * v.z
  let w2 := q.w * q.w - 1/2
  let dot2 := q.x * vx + q.y * vy + q.z * vz
  ⟨vx * w2 + (q.y * vz - q.z * vy) * q.w + q.x * dot2,
   vy * w2 + (q.z * vx - q.x * vz) * q.w + q.y * dot2,
   vz * w2 + (q.x * vy - q.y * vx) * q.w + q.z * dot2⟩

/-- Rigid-body pose (PxTransform): position and rotation. -/
structure Pose where
  p : Vec3
  q : Quat
deriving DecidableEq

/-- PxTransform::transform: rotate then translate. -/
def Pose.transform (t : Pose) (v : Vec3) : Vec3 :=
  Vec3.add (t.q.rotate v) t.p

-- ## Collision filter scheme (SimulationFilter.h)

namespace FilterGroup

/-- FilterGroup::eGROUND = 1 << 0. -/
def eGROUND : ℕ := 1
/-- FilterGroup::eCHASSIS = 1 << 1. -/
def eCHASSIS : ℕ := 2
/-- FilterGroup::eWHEEL = 1 << 2. -/
def eWHEEL : ℕ := 4
/-- FilterGroup::eOBSTACLE = 1 << 3. -/
def eOBSTACLE : ℕ := 8
/-- FilterGroup::eBLOCK = 1 << 4. -/
def eBLOCK : ℕ := 16

end FilterGroup

/-- PxFilterData: word0 = own category, word1 = accept mask (words 2,3 unused). -/
structure PxFilterData where
  word0 : ℕ
  word1 : ℕ
deriving DecidableEq

/-- The three distinct exits of VehicleFilterShader: a trigger pair,
where pairFlags is set to eTRIGGER_DEFAULT and eDEFAULT is returned; an
accepted contact, where pairFlags is set to eCONTACT_DEFAULT combined
with eNOTIFY_TOUCH_FOUND and eDEFAULT is returned; or a fully suppressed
pair, where eSUPPRESS is returned. -/
inductive FilterVerdict where
  | triggerPass
  | contactNotify
  | suppressed
deriving DecidableEq

/-- VehicleFilterShader (SimulationFilter.h): triggers always pass with
trigger semantics; otherwise the pair is accepted with touch notification
iff both symmetric category/mask conjunctions are nonzero, and suppressed
otherwise. -/
def vehicleFilterShader (isTrigger0 : Bool) (fd0 : PxFilterData)
    (isTrigger1 : Bool) (fd1 : PxFilterData) : FilterVerdict :=
  if isTrigger0 || isTrigger1 then
    .triggerPass
  else if (fd0.word0 &&& fd1.word1 != 0) && (fd1.word0 &&& fd0.word1 != 0) then
    .contactNotify
  else
    .suppressed

-- ## Game blocks (GameBlock.h, SpawnBlock in main.cpp)

/-- BlockColor from GameBlock.h. -/
inductive BlockColor where
  | RED
  | BLUE
deriving DecidableEq

/-- A GameBlock together with the observable state of its rigid body:
pose, velocities and the simulation filter data of its (single) shape.
`hasBody` models whether the `body` pointer is non-null. -/
structure BlockState where
  hasBody : Bool
  color : BlockColor
  held : Bool
  pos : Vec3
  rot : Quat
  linVel : Vec3
  angVel : Vec3
  filter : PxFilterData
deriving DecidableEq

/-- The filter row SpawnBlock installs on a fresh block:
category eBLOCK, mask eGROUND | eCHASSIS | eWHEEL | eOBSTACLE | eBLOCK. -/
def spawnBlockFilter : PxFilterData :=
  ⟨FilterGroup.eBLOCK,
   FilterGroup.eGROUND ||| FilterGroup.eCHASSIS ||| FilterGroup.eWHEEL |||
     FilterGroup.eOBSTACLE ||| FilterGroup.eBLOCK⟩

-- ## Robot (Robot.h / Robot.cpp)

/-- The drive state of one motorized revolute wheel joint. -/
structure JointState where
  driveVelocity : ℚ
  driveForceLimit : ℚ
deriving DecidableEq

/-- A HeldBlock record: the index of the referenced GameBlock and an
identifier for the PxFixedJoint created at intake time. -/
structure HeldBlock where
  blockIdx : ℕ
  jointId : ℕ
deriving DecidableEq

/-- Robot state: `chassis = none` models a null mChassis (construction
failure); wheelJoints are the 8 motorized revolute joints; throttleInput
and mTurnInput hold the raw left/right drive inputs; heldBlocks is the
mHeldBlocks vector (append at the back, pop from the back). -/
structure RobotState where
  chassis : Option Pose
  wheelJoints : List JointState
  throttleInput : ℚ
  turnInput : ℚ
  heldBlocks : List HeldBlock
deriving DecidableEq

/-- ROBOT_LENGTH = 0.35f. -/
def robotLength : ℚ := 7/20
/-- DRIVE_TORQUE = 500.0f. -/
def driveTorque : ℚ := 500
/-- INTAKE_RANGE = 0.35f. -/
def intakeRange : ℚ := 7/20
/-- MAX_HELD_BLOCKS = 8. -/
def maxHeldBlocks : ℕ := 8

/-- Robot::SetDriveInput: a pure setter storing the raw inputs. -/
def setDriveInput (r : RobotState) (left right : ℚ) : RobotState :=
  { r with throttleInput := left, turnInput := right }

/-- Robot::IsIntakeFull: mHeldBlocks.size() >= MAX_HELD_BLOCKS. -/
def isIntakeFull (r : RobotState) : Bool :=
  maxHeldBlocks ≤ r.heldBlocks.length

/-- std::max(-1.0f, std::min(1.0f, v)). -/
def clamp1 (v : ℚ) : ℚ := max (-1) (min 1 v)

/-- Robot::Update: no-op when the chassis is null; otherwise clamps both
inputs to [-1, 1] and, for each wheel joint, sets drive velocity to
(left for the first four joints, right for the rest) times 20 rad/s and
re-asserts the drive force limit DRIVE_TORQUE.  dt is unused. -/
def robotUpdate (r : RobotState) (dt : ℚ) : RobotState :=
  match r.chassis with
  | none => r
  | some _ =>
    let leftInput := clamp1 r.throttleInput
    let rightInput := clamp1 r.turnInput
    let maxVelocity : ℚ := 20
    { r with
      wheelJoints := r.wheelJoints.mapIdx fun i _ =>
        let input := if i < 4 then leftInput else rightInput
        ⟨input * maxVelocity, driveTorque⟩ }

/-- Robot::GetFrontPosition: PxVec3(0) when the chassis is null, else the
chassis pose applied to the local point (0, 0, ROBOT_LENGTH/2 + 0.05). -/
def getFrontPosition (r : RobotState) : Vec3 :=
  match r.chassis with
  | none => Vec3.zero
  | some pose => pose.transform ⟨0, 0, robotLength / 2 + 1/20⟩

/-- glm::translate(glm::mat4(1.0f), v). -/
def mat4Translate (v : Vec3) : Matrix (Fin 4) (Fin 4) ℚ :=
  !![1, 0, 0, v.x;
     0, 1, 0, v.y;
     0, 0, 1, v.z;
     0, 0, 0, 1]

/-- glm::mat4_cast(q): homogeneous 4x4 form of the standard
quaternion-to-matrix conversion. -/
def mat4Cast (q : Quat) : Matrix (Fin 4) (Fin 4) ℚ :=
  !![1 - 2*(q.y*q.y + q.z*q.z), 2*(q.x*q.y - q.w*q.z), 2*(q.x*q.z + q.w*q.y), 0;
     2*(q.x*q.y + q.w*q.z), 1 - 2*(q.x*q.x + q.z*q.z), 2*(q.y*q.z - q.w*q.x), 0;
     2*(q.x*q.z - q.w*q.y), 2*(q.y*q.z + q.w*q.x), 1 - 2*(q.x*q.x + q.y*q.y), 0;
     0, 0, 0, 1]

/-- glm::scale(glm::mat4(1.0f), glm::vec3(k)). -/
def mat4Scale (k : ℚ) : Matrix (Fin 4) (Fin 4) ℚ :=
  !![k, 0, 0, 0;
     0, k, 0, 0;
     0, 0, k, 0;
     0, 0, 0, 1]

/-- Robot::GetTransformMatrix: glm::mat4(1.0f) when the chassis is null,
else translation * rotation * scale built from the chassis pose. -/
def getTransformMatrix (r : RobotState) (visualScale : ℚ) :
    Matrix (Fin 4) (Fin 4) ℚ :=
  match r.chassis with
  | none => 1
  | some pose => mat4Translate pose.p * mat4Cast pose.q * mat4Scale visualScale

-- ## Whole-simulation state (main.cpp session)

/-- The observable simulation state: the robot, the spawned blocks (a
std::list appended on spawn; HeldBlock records index into it), and a
counter of successfully created fixed joints (each non-null return of
PxFixedJointCreate bumps it). -/
structure SimState where
  robot : RobotState
  blocks : List BlockState
  jointsCreated : ℕ
deriving DecidableEq

/-- std::vector::push_back. -/
def pushBack (l : List α) (a : α) : List α := l ++ [a]

/-- std::vector::back() on a possibly-empty vector. -/
def backOpt (l : List α) : Option α := l.getLast?

/-- std::vector::pop_back. -/
def popBack (l : List α) : List α := l.dropLast

/-- SpawnBlock (main.cpp): appends a fresh dynamic block at the given
position (identity rotation, zero velocities) carrying the standard
block filter row; its `held` flag starts false. -/
def spawnBlock (s : SimState) (c : BlockColor) (position : Vec3) : SimState :=
  { s with
    blocks := pushBack s.blocks
      { hasBody := true, color := c, held := false,
        pos := position, rot := Quat.one,
        linVel := Vec3.zero, angVel := Vec3.zero,
        filter := spawnBlockFilter } }

/-- Squared intake range; `dist > INTAKE_RANGE` is modelled as
`INTAKE_RANGE^2 < dist^2` (both sides nonnegative). -/
def intakeRangeSq : ℚ := intakeRange * intakeRange

/-- Robot::TryIntake on the block at index `i`.  `jointOk` tells whether
PxFixedJointCreate returns non-null.  Returns the new state and the bool
result.  Faithful to the source order: null-chassis / held / null-body
guard, capacity guard, distance guard, then teleport + velocity zeroing
+ filter zeroing, then joint creation; only on joint success is the
HeldBlock record appended and the held flag set. -/
def tryIntake (s : SimState) (i : ℕ) (jointOk : Bool) : SimState × Bool :=
  match s.robot.chassis with
  | none => (s, false)
  | some chassisPose =>
    match s.blocks[i]? with
    | none => (s, false)
    | some blk =>
      if blk.held || !blk.hasBody then (s, false)
      else if isIntakeFull s.robot then (s, false)
      else
        let frontPos := getFrontPosition s.robot
        let dSq := distSq frontPos blk.pos
        if intakeRangeSq < dSq then (s, false)
        else
          let holdPos := chassisPose.transform Vec3.zero
          let blk' := { blk with
            pos := holdPos, rot := chassisPose.q,
            linVel := Vec3.zero, angVel := Vec3.zero,
            filter := ⟨0, 0⟩ }
          let mutated := { s with blocks := s.blocks.set i blk' }
          if jointOk then
            ({ mutated with
               robot := { mutated.robot with
                 heldBlocks := pushBack mutated.robot.heldBlocks
                   ⟨i, s.jointsCreated⟩ },
               blocks := mutated.blocks.set i { blk' with held := true },
               jointsCreated := s.jointsCreated + 1 }, true)
          else
            (mutated, false)

/-- The filter row Robot::Outtake re-installs on release (same value as
spawnBlockFilter, written in the source's own order). -/
def outtakeRestoredFilter : PxFilterData :=
  ⟨FilterGroup.eBLOCK,
   FilterGroup.eGROUND ||| FilterGroup.eCHASSIS ||| FilterGroup.eOBSTACLE |||
     FilterGroup.eBLOCK ||| FilterGroup.eWHEEL⟩

/-- Robot::Outtake.  Returns `none` exactly when the C++ code would
dereference a null mChassis (reached only with a non-empty held list and
a valid block body; shown unreachable from reachable states).  Otherwise
`some` of the successor state: pop the last HeldBlock record; if its
block pointer or body is null, stop there; else release the joint,
teleport the block to the eject position (chassis forward times
ROBOT_LENGTH/2 + 0.15, height pinned to the chassis), zero its
velocities, restore the standard filter row, give it forward velocity
1.0, and clear its held flag. -/
def outtake (s : SimState) : Option SimState :=
  match backOpt s.robot.heldBlocks with
  | none => some s
  | some hb =>
    let s1 := { s with robot :=
      { s.robot with heldBlocks := popBack s.robot.heldBlocks } }
    match s.blocks[hb.blockIdx]? with
    | none => some s1
    | some blk =>
      if !blk.hasBody then some s1
      else
        match s.robot.chassis with
        | none => none
        | some pose =>
          let forward := pose.q.rotate ⟨0, 0, 1⟩
          let ejectPos0 := Vec3.add pose.p (Vec3.smul (robotLength / 2 + 3/20) forward)
          let ejectPos : Vec3 := ⟨ejectPos0.x, pose.p.y, ejectPos0.z⟩
          let blk' := { blk with
            pos := ejectPos, rot := pose.q,
            linVel := Vec3.smul 1 forward,
            angVel := Vec3.zero,
            filter := outtakeRestoredFilter,
            held := false }
          some { s1 with blocks := s1.blocks.set hb.blockIdx blk' }

-- ## Per-frame intake selection (main.cpp, F-key handler)

/-- The selection loop of the intake handler: walks the block list
keeping the strictly-smallest squared distance seen so far (bestDist
starts at 999, modelled squared) among blocks that are unheld and have a
body; returns the best squared distance and the index of the chosen
block.  `idx` is the index of the first element of `rest`. -/
def selectFrom (frontPos : Vec3) (idx : ℕ) (rest : List BlockState)
    (bestSq : ℚ) (best : Option ℕ) : ℚ × Option ℕ :=
  match rest with
  | [] => (bestSq, best)
  | b :: bs =>
    if b.held || !b.hasBody then
      selectFrom frontPos (idx + 1) bs bestSq best
    else
      let dSq := distSq frontPos b.pos
      if dSq < bestSq then
        selectFrom frontPos (idx + 1) bs dSq (some idx)
      else
        selectFrom frontPos (idx + 1) bs bestSq best

/-- The intake handler's choice of block to pass to TryIntake. -/
def selectBestBlock (frontPos : Vec3) (blocks : List BlockState) : Option ℕ :=
  (selectFrom frontPos 0 blocks (999 * 999) none).2

-- ## Fixed-step physics drain (main.cpp main loop)

/-- physicsTimestep = 1.0f / 60.0f. -/
def physicsTimestep : ℚ := 1/60

/-- One call made inside the fixed-step drain loop. -/
inductive FixedCall where
  | robotUpdateCall (dt : ℚ)
  | physicsUpdateCall (dt : ℚ)
deriving DecidableEq

/-- The drain loop `while (acc >= ts) { robot.Update(ts); physics.Update(ts);
acc -= ts; }`: returns the sequence of calls issued (in order) and the
left-over accumulator value. -/
def drainAccumulator (ts : ℚ) (hts : 0 < ts) (acc : ℚ) : List FixedCall × ℚ :=
  if h : ts ≤ acc then
    let rest := drainAccumulator ts hts (acc - ts)
    (FixedCall.robotUpdateCall ts :: FixedCall.physicsUpdateCall ts :: rest.1,
     rest.2)
  else
    ([], acc)
termination_by ⌊acc / ts⌋₊
decreasing_by
  have h1 : (1 : ℚ) ≤ acc / ts := (one_le_div hts).mpr h
  have h2 : (acc - ts) / ts = acc / ts - 1 := by field_simp
  have h3 : ⌊(acc - ts) / ts⌋₊ = ⌊acc / ts⌋₊ - 1 := by
    rw [h2]
    exact_mod_cast Nat.floor_sub_nat (acc / ts) 1
  have h4 : 1 ≤ ⌊acc / ts⌋₊ := Nat.le_floor (by exact_mod_cast h1)
  omega

-- ## The session step relation

/-- Relates the old and new observable state of one block across a
physics step: the engine may move it and change its velocities, but
cannot touch the held flag, the body pointer, the color, or the
simulation filter data. -/
def KinematicsOnly (a b : BlockState) : Prop :=
  b.hasBody = a.hasBody ∧ b.color = a.color ∧ b.held = a.held ∧
    b.filter = a.filter

/-- What a synchronous PhysicsWorld::Update may do to the state `a`:
move the chassis (without creating or destroying it) and move the
blocks, leaving all discrete manipulation state alone. -/
def PhysicsStepRel (a b : SimState) : Prop :=
  b.robot.chassis.isSome = a.robot.chassis.isSome ∧
  b.robot.wheelJoints = a.robot.wheelJoints ∧
  b.robot.throttleInput = a.robot.throttleInput ∧
  b.robot.turnInput = a.robot.turnInput ∧
  b.robot.heldBlocks = a.robot.heldBlocks ∧
  b.jointsCreated = a.jointsCreated ∧
  List.Forall₂ KinematicsOnly a.blocks b.blocks

/-- One observable transition of the session: a spawn event, a drive
input write, a TryIntake call (with the environment deciding whether
PxFixedJointCreate succeeds), an Outtake call, or one fixed step
(Robot::Update then PhysicsWorld::Update). -/
inductive Step : SimState → SimState → Prop where
  | spawn (s : SimState) (c : BlockColor) (position : Vec3) :
      Step s (spawnBlock s c position)
  | setInput (s : SimState) (l r : ℚ) :
      Step s { s with robot := setDriveInput s.robot l r }
  | intake (s : SimState) (i : ℕ) (jointOk : Bool) :
      Step s (tryIntake s i jointOk).1
  | outtakeStep (s s' : SimState) (h : outtake s = some s') :
      Step s s'
  | update (s s' : SimState) (dt : ℚ)
      (h : PhysicsStepRel { s with robot := robotUpdate s.robot dt } s') :
      Step s s'

/-- The state right after startup: Robot::Initialize either produced a
chassis (and then CreateWheels installed 8 joints with zero drive
velocity and force limit DRIVE_TORQUE) or failed (null chassis, no
wheels); no blocks exist and nothing is held. -/
def initState (chassisInit : Option Pose) : SimState :=
  { robot :=
    { chassis := chassisInit
      wheelJoints :=
        match chassisInit with
        | none => []
        | some _ => List.replicate 8 ⟨0, driveTorque⟩
      throttleInput := 0
      turnInput := 0
      heldBlocks := [] }
    blocks := []
    jointsCreated := 0 }

/-- States reachable by any sequence of session events from startup. -/
inductive Reachable : SimState → Prop where
  | init (c : Option Pose) : Reachable (initState c)
  | step {s s' : SimState} : Reachable s → Step s s' → Reachable s'

-- ## Characterization lemmas for TryIntake and Outtake

/-- Abbreviation: the block state after TryIntake's teleport, velocity
zeroing and filter zeroing (before the held flag is touched). -/
def intakeMutBlock (cp : Pose) (blk : BlockState) : BlockState :=
  { blk with
    pos := cp.transform Vec3.zero, rot := cp.q,
    linVel := Vec3.zero, angVel := Vec3.zero, filter := ⟨0, 0⟩ }

/-- Abbreviation: the successor state of a successful TryIntake. -/
def intakeSuccessState (s : SimState) (i : ℕ) (cp : Pose) (blk : BlockState) :
    SimState :=
  { s with
    robot := { s.robot with
      heldBlocks := pushBack s.robot.heldBlocks ⟨i, s.jointsCreated⟩ },
    blocks := s.blocks.set i { intakeMutBlock cp blk with held := true },
    jointsCreated := s.jointsCreated + 1 }

/-- Abbreviation: the block state after Outtake's eject. -/
def ejectedBlock (pose : Pose) (blk : BlockState) : BlockState :=
  let forward := pose.q.rotate ⟨0, 0, 1⟩
  let ejectPos0 := Vec3.add pose.p (Vec3.smul (robotLength / 2 + 3/20) forward)
  { blk with
    pos := ⟨ejectPos0.x, pose.p.y, ejectPos0.z⟩, rot := pose.q,
    linVel := Vec3.smul 1 forward, angVel := Vec3.zero,
    filter := outtakeRestoredFilter, held := false }

/-- How many HeldBlock records of the list reference block index `i`. -/
def refCountL (l : List HeldBlock) (i : ℕ) : ℕ :=
  l.countP (fun hb => hb.blockIdx == i)

/-- How many HeldBlock records of the state reference block index `i`. -/
def refCount (s : SimState) (i : ℕ) : ℕ :=
  refCountL s.robot.heldBlocks i

/-- The master invariant of a session: held records stay in bounds;
every block's body pointer is non-null; at most 8 records exist; a
chassis-less session never holds anything; and every block is either
free and unreferenced or held and referenced exactly once. -/
def SessionInv (s : SimState) : Prop :=
  (∀ hb ∈ s.robot.heldBlocks, hb.blockIdx < s.blocks.length) ∧
  (∀ i : ℕ, ∀ blk : BlockState, s.blocks[i]? = some blk → blk.hasBody = true) ∧
  s.robot.heldBlocks.length ≤ maxHeldBlocks ∧
  (s.robot.chassis = none → s.robot.heldBlocks = []) ∧
  (∀ i : ℕ, ∀ blk : BlockState, s.blocks[i]? = some blk →
    (blk.held = false ∧ refCount s i = 0) ∨
    (blk.held = true ∧ refCount s i = 1))

-- ## Concrete fixtures used by the witnesses

/-- A chassis resting at the origin with identity orientation. -/
def idPose : Pose := ⟨Vec3.zero, Quat.one⟩

/-- A freshly spawned free block at the given position. -/
def freeBlockAt (p : Vec3) : BlockState :=
  { hasBody := true, color := BlockColor.RED, held := false,
    pos := p, rot := Quat.one, linVel := Vec3.zero, angVel := Vec3.zero,
    filter := spawnBlockFilter }

/-- A session with an identity-pose chassis, three free in-range blocks
and nothing held.  The front reference point of idPose is (0, 0, 9/40). -/
def demoStart : SimState :=
  { robot :=
    { chassis := some idPose
      wheelJoints := List.replicate 8 ⟨0, driveTorque⟩
      throttleInput := 0
      turnInput := 0
      heldBlocks := [] }
    blocks := [freeBlockAt ⟨0, 0, 1/4⟩, freeBlockAt ⟨0, 0, 1/5⟩,
               freeBlockAt ⟨0, 0, 1/8⟩]
    jointsCreated := 0 }

/-- A session already holding 8 blocks (capacity), with one extra free
in-range block at index 0. -/
def fullState : SimState :=
  { robot :=
    { chassis := some idPose
      wheelJoints := List.replicate 8 ⟨0, driveTorque⟩
      throttleInput := 0
      turnInput := 0
      heldBlocks := [⟨1, 0⟩, ⟨2, 1⟩, ⟨3, 2⟩, ⟨4, 3⟩, ⟨5, 4⟩, ⟨6, 5⟩,
                     ⟨7, 6⟩, ⟨8, 7⟩] }
    blocks := [freeBlockAt ⟨0, 0, 1/4⟩]
    jointsCreated := 8 }

/-- A block currently held (zeroed filter), as TryIntake leaves it. -/
def heldDemoBlock : BlockState :=
  { freeBlockAt Vec3.zero with held := true, filter := ⟨0, 0⟩ }

/-- A session holding exactly one block (index 0). -/
def oneHeldState : SimState :=
  { robot :=
    { chassis := some idPose
      wheelJoints := List.replicate 8 ⟨0, driveTorque⟩
      throttleInput := 0
      turnInput := 0
      heldBlocks := [⟨0, 0⟩] }
    blocks := [heldDemoBlock]
    jointsCreated := 1 }

/-- A drivetrain with a live chassis and out-of-range raw inputs. -/
def demoRobot : RobotState :=
  { chassis := some idPose
    wheelJoints := List.replicate 8 ⟨0, driveTorque⟩
    throttleInput := 1/2
    turnInput := -3
    heldBlocks := [] }

-- ## C3 witness fixtures: a concrete three-intake run

/-- State after intaking block 0 of demoStart. -/
def demoAfter1 : SimState :=
  intakeSuccessState demoStart 0 idPose (freeBlockAt ⟨0, 0, 1/4⟩)
/-- State after then intaking block 1. -/
def demoAfter2 : SimState :=
  intakeSuccessState demoAfter1 1 idPose (freeBlockAt ⟨0, 0, 1/5⟩)
/-- State after then intaking block 2. -/
def demoAfter3 : SimState :=
  intakeSuccessState demoAfter2 2 idPose (freeBlockAt ⟨0, 0, 1/8⟩)

/-- A session whose only block is far out of intake range. -/
def farState : SimState := { demoStart with blocks := [freeBlockAt ⟨0, 0, 5⟩] }

theorem tryIntake_success_spec {s : SimState} {i : ℕ} {jointOk : Bool}
    {s' : SimState} (h : tryIntake s i jointOk = (s', true)) :
    ∃ cp blk, jointOk = true ∧ s.robot.chassis = some cp ∧
      s.blocks[i]? = some blk ∧ blk.held = false ∧ blk.hasBody = true ∧
      s.robot.heldBlocks.length < maxHeldBlocks ∧
      distSq (getFrontPosition s.robot) blk.pos ≤ intakeRangeSq ∧
      s' = intakeSuccessState s i cp blk := by
  unfold tryIntake at h
  split at h
  · simp at h
  case _ cp hcp =>
    split at h
    · simp at h
    case _ blk hblk =>
      split at h
      · simp at h
      case _ hguard =>
        split at h
        · simp at h
        case _ hfull =>
          simp only [] at h
          by_cases hrange : intakeRangeSq < distSq (getFrontPosition s.robot) blk.pos
          · rw [if_pos hrange] at h
            simp at h
          · rw [if_neg hrange] at h
            by_cases hjoint : jointOk = true
            · rw [if_pos hjoint] at h
              simp only [Prod.mk.injEq] at h
              refine ⟨cp, blk, hjoint, hcp, hblk, ?_, ?_, ?_, ?_, ?_⟩
              · simp only [Bool.or_eq_true, Bool.not_eq_true'] at hguard
                exact Bool.eq_false_iff.mpr fun hh => hguard (Or.inl hh)
              · simp only [Bool.or_eq_true, Bool.not_eq_true'] at hguard
                by_contra hh
                exact hguard (Or.inr (Bool.not_eq_true _ ▸ Bool.eq_false_iff.mpr hh))
              · simpa [isIntakeFull, Nat.lt_iff_add_one_le, Nat.not_le] using hfull
              · exact le_of_not_lt hrange
              · rw [← h.1]
                simp [intakeSuccessState, intakeMutBlock, List.set_set]
            · rw [if_neg hjoint] at h
              simp at h

/-- TryIntake at capacity is (s, false): every path with 8 held blocks
returns false with no state change at all. -/
theorem tryIntake_at_capacity (s : SimState) (i : ℕ) (jointOk : Bool)
    (hfull : maxHeldBlocks ≤ s.robot.heldBlocks.length) :
    tryIntake s i jointOk = (s, false) := by
  unfold tryIntake
  split
  · rfl
  split
  · rfl
  split
  · rfl
  split
  · rfl
  case _ hnotfull =>
    exact absurd (by simpa [isIntakeFull] using hfull) hnotfull

/-- TryIntake on an out-of-range block is (s, false). -/
theorem tryIntake_out_of_range (s : SimState) (i : ℕ) (jointOk : Bool)
    {blk : BlockState} (hblk : s.blocks[i]? = some blk)
    (hr : intakeRangeSq < distSq (getFrontPosition s.robot) blk.pos) :
    tryIntake s i jointOk = (s, false) := by
  unfold tryIntake
  split
  · rfl
  split
  · rfl
  case _ blk' hblk' =>
    rw [hblk] at hblk'
    cases hblk'
    split
    · rfl
    split
    · rfl
    simp only []
    rw [if_pos hr]

/-- The three possible results of TryIntake, as seen on the state:
unchanged, mutated-but-not-held (joint creation failed after the
teleport/zeroing), or the full success state. -/
theorem tryIntake_fst_shape (s : SimState) (i : ℕ) (jointOk : Bool) :
    (tryIntake s i jointOk).1 = s ∨
    (∃ cp blk, s.robot.chassis = some cp ∧ s.blocks[i]? = some blk ∧
      blk.held = false ∧ blk.hasBody = true ∧
      ((jointOk = false ∧ (tryIntake s i jointOk) =
          ({ s with blocks := s.blocks.set i (intakeMutBlock cp blk) }, false)) ∨
       (jointOk = true ∧ s.robot.heldBlocks.length < maxHeldBlocks ∧
          (tryIntake s i jointOk) = (intakeSuccessState s i cp blk, true)))) := by
  unfold tryIntake
  split
  · exact Or.inl rfl
  case _ cp hcp =>
    split
    · exact Or.inl rfl
    case _ blk hblk =>
      split
      · exact Or.inl rfl
      case _ hguard =>
        split
        · exact Or.inl rfl
        case _ hfull =>
          have hheld : blk.held = false := by
            simp only [Bool.or_eq_true, Bool.not_eq_true'] at hguard
            exact Bool.eq_false_iff.mpr fun hh => hguard (Or.inl hh)
          have hbody : blk.hasBody = true := by
            simp only [Bool.or_eq_true, Bool.not_eq_true'] at hguard
            by_contra hh
            exact hguard (Or.inr (Bool.not_eq_true _ ▸ Bool.eq_false_iff.mpr hh))
          have hlt : s.robot.heldBlocks.length < maxHeldBlocks := by
            simpa [isIntakeFull, Nat.lt_iff_add_one_le, Nat.not_le] using hfull
          simp only []
          by_cases hrange : intakeRangeSq < distSq (getFrontPosition s.robot) blk.pos
          · rw [if_pos hrange]
            exact Or.inl rfl
          · rw [if_neg hrange]
            by_cases hjoint : jointOk = true
            · rw [if_pos hjoint]
              refine Or.inr ⟨cp, blk, hcp, hblk, hheld, hbody,
                Or.inr ⟨hjoint, hlt, ?_⟩⟩
              simp [intakeSuccessState, intakeMutBlock, List.set_set]
            · rw [if_neg hjoint]
              refine Or.inr ⟨cp, blk, hcp, hblk, hheld, hbody,
                Or.inl ⟨Bool.not_eq_true _ ▸ hjoint, ?_⟩⟩
              simp [intakeMutBlock]

theorem outtake_empty {s : SimState} (h : s.robot.heldBlocks = []) :
    outtake s = some s := by
  unfold outtake
  simp [backOpt, h]

theorem outtake_concat_spec {s : SimState} {l : List HeldBlock}
    {hb : HeldBlock} {blk : BlockState} {pose : Pose}
    (hl : s.robot.heldBlocks = pushBack l hb)
    (hblk : s.blocks[hb.blockIdx]? = some blk)
    (hbody : blk.hasBody = true)
    (hch : s.robot.chassis = some pose) :
    outtake s = some { s with
      robot := { s.robot with heldBlocks := l },
      blocks := s.blocks.set hb.blockIdx (ejectedBlock pose blk) } := by
  unfold outtake
  have hback : backOpt s.robot.heldBlocks = some hb := by
    simp [backOpt, hl, pushBack, List.getLast?_concat]
  have hpop : popBack s.robot.heldBlocks = l := by
    simp [popBack, hl, pushBack, List.dropLast_concat]
  rw [hback]
  simp only [hblk, hbody, hch, hpop, Bool.not_true]
  simp [ejectedBlock, hbody]

-- ## The session invariant

theorem refCountL_concat (l : List HeldBlock) (hb : HeldBlock) (i : ℕ) :
    refCountL (pushBack l hb) i =
      refCountL l i + (if hb.blockIdx = i then 1 else 0) := by
  simp [refCountL, pushBack, List.countP_append, List.countP_cons]

theorem refCountL_eq_zero {l : List HeldBlock} {i : ℕ}
    (h : ∀ hb ∈ l, hb.blockIdx ≠ i) : refCountL l i = 0 := by
  rw [refCountL, List.countP_eq_zero]
  intro hb hmem
  simpa using h hb hmem

theorem getElem?_some_lt {α : Type _} {l : List α} {i : ℕ} {a : α}
    (h : l[i]? = some a) : i < l.length := by
  by_contra hc
  rw [List.getElem?_eq_none (le_of_not_lt hc)] at h
  cases h

theorem forall2_getElem?_right {α β : Type _} {R : α → β → Prop}
    {l₁ : List α} {l₂ : List β} (h : List.Forall₂ R l₁ l₂) {i : ℕ} {b : β}
    (hb : l₂[i]? = some b) : ∃ a, l₁[i]? = some a ∧ R a b := by
  obtain ⟨hlen, hget⟩ := List.forall₂_iff_get.mp h
  have hi : i < l₂.length := getElem?_some_lt hb
  have hi1 : i < l₁.length := hlen ▸ hi
  have hb2 : l₂[i] = b := by
    have := List.getElem?_eq_getElem hi
    rw [hb] at this
    exact Option.some_inj.mp this.symm
  refine ⟨l₁[i], List.getElem?_eq_getElem hi1, ?_⟩
  have := hget i hi1 hi
  simpa [List.get_eq_getElem, hb2] using this

theorem robotUpdate_chassis (r : RobotState) (dt : ℚ) :
    (robotUpdate r dt).chassis = r.chassis := by
  unfold robotUpdate
  split <;> rfl

theorem robotUpdate_heldBlocks (r : RobotState) (dt : ℚ) :
    (robotUpdate r dt).heldBlocks = r.heldBlocks := by
  unfold robotUpdate
  split <;> rfl

theorem initState_Inv (c : Option Pose) : SessionInv (initState c) := by
  refine ⟨?_, ?_, ?_, ?_, ?_⟩ <;> simp [initState, maxHeldBlocks]

theorem step_preserves_Inv {s s' : SimState} (hs : SessionInv s) (st : Step s s') :
    SessionInv s' := by
  obtain ⟨hbound, hbody, hlen, hnone, hone⟩ := hs
  cases st with
  | spawn c position =>
    have hrc : ∀ j, refCount (spawnBlock s c position) j = refCount s j :=
      fun _ => rfl
    refine ⟨?_, ?_, hlen, hnone, ?_⟩
    · intro hb hmem
      simp only [spawnBlock, pushBack, List.length_append, List.length_cons,
        List.length_nil]
      exact Nat.lt_of_lt_of_le (hbound hb hmem) (Nat.le_add_right _ _)
    · intro j b hj
      simp only [spawnBlock, pushBack] at hj
      rcases Nat.lt_trichotomy j s.blocks.length with hlt | heq | hgt
      · rw [List.getElem?_append_left hlt] at hj
        exact hbody j b hj
      · subst heq
        rw [List.getElem?_concat_length] at hj
        cases hj
        rfl
      · rw [List.getElem?_eq_none] at hj
        · cases hj
        · simpa using hgt
    · intro j b hj
      simp only [spawnBlock, pushBack] at hj
      rcases Nat.lt_trichotomy j s.blocks.length with hlt | heq | hgt
      · rw [List.getElem?_append_left hlt] at hj
        rw [hrc]
        exact hone j b hj
      · subst heq
        rw [List.getElem?_concat_length] at hj
        cases hj
        refine Or.inl ⟨rfl, ?_⟩
        rw [hrc]
        exact refCountL_eq_zero fun hb hmem =>
          Nat.ne_of_lt (hbound hb hmem)
      · rw [List.getElem?_eq_none] at hj
        · cases hj
        · simpa using hgt
  | setInput l r =>
    exact ⟨hbound, hbody, hlen, hnone, hone⟩
  | intake i jointOk =>
    rcases tryIntake_fst_shape s i jointOk with hsame |
      ⟨cp, blk, hcp, hblk, hheld, hbody', hcase⟩
    · rw [hsame]
      exact ⟨hbound, hbody, hlen, hnone, hone⟩
    have hi : i < s.blocks.length := getElem?_some_lt hblk
    rcases hcase with ⟨hjf, heq⟩ | ⟨hjt, hlt, heq⟩
    · have heq1 : (tryIntake s i jointOk).1 =
          { s with blocks := s.blocks.set i (intakeMutBlock cp blk) } := by
        rw [heq]
      rw [heq1]
      refine ⟨?_, ?_, hlen, hnone, ?_⟩
      · intro hb hmem
        rw [List.length_set]
        exact hbound hb hmem
      · intro j b hj
        by_cases hji : j = i
        · subst hji
          rw [List.getElem?_set_eq_of_lt _ hi] at hj
          cases hj
          simpa [intakeMutBlock] using hbody'
        · rw [List.getElem?_set_ne (Ne.symm hji)] at hj
          exact hbody j b hj
      · intro j b hj
        by_cases hji : j = i
        · subst hji
          rw [List.getElem?_set_eq_of_lt _ hi] at hj
          cases hj
          rcases hone j blk hblk with ⟨_, hc⟩ | ⟨hc, _⟩
          · exact Or.inl ⟨by simpa [intakeMutBlock] using hheld, hc⟩
          · rw [hheld] at hc
            cases hc
        · rw [List.getElem?_set_ne (Ne.symm hji)] at hj
          exact hone j b hj
    · have heq1 : (tryIntake s i jointOk).1 = intakeSuccessState s i cp blk := by
        rw [heq]
      rw [heq1]
      have hrc : ∀ j, refCount (intakeSuccessState s i cp blk) j =
          refCount s j + (if i = j then 1 else 0) := by
        intro j
        simp only [refCount, intakeSuccessState]
        exact refCountL_concat s.robot.heldBlocks ⟨i, s.jointsCreated⟩ j
      refine ⟨?_, ?_, ?_, ?_, ?_⟩
      · intro hb hmem
        simp only [intakeSuccessState, pushBack, List.mem_append,
          List.mem_singleton] at hmem
        simp only [intakeSuccessState, List.length_set]
        rcases hmem with hmem | rfl
        · exact hbound hb hmem
        · exact hi
      · intro j b hj
        simp only [intakeSuccessState] at hj
        by_cases hji : j = i
        · subst hji
          rw [List.getElem?_set_eq_of_lt _ hi] at hj
          cases hj
          simpa [intakeMutBlock] using hbody'
        · rw [List.getElem?_set_ne (Ne.symm hji)] at hj
          exact hbody j b hj
      · simpa [intakeSuccessState, pushBack, Nat.succ_le_iff] using hlt
      · intro hcn
        simp only [intakeSuccessState] at hcn
        rw [hcp] at hcn
        cases hcn
      · intro j b hj
        simp only [intakeSuccessState] at hj
        by_cases hji : j = i
        · subst hji
          rw [List.getElem?_set_eq_of_lt _ hi] at hj
          cases hj
          refine Or.inr ⟨rfl, ?_⟩
          rw [hrc, if_pos rfl]
          rcases hone j blk hblk with ⟨_, hc⟩ | ⟨hc, _⟩
          · omega
          · rw [hheld] at hc
            cases hc
        · rw [List.getElem?_set_ne (Ne.symm hji)] at hj
          rw [hrc, if_neg fun hh => hji hh.symm]
          simpa using hone j b hj
  | outtakeStep _ h =>
    rcases List.eq_nil_or_concat s.robot.heldBlocks with hemp | ⟨l, hb, hconcat⟩
    · rw [outtake_empty hemp] at h
      cases h
      exact ⟨hbound, hbody, hlen, hnone, hone⟩
    · rw [List.concat_eq_append] at hconcat
      have hmemhb : hb ∈ s.robot.heldBlocks := by
        rw [hconcat]
        simp
      have hidx : hb.blockIdx < s.blocks.length := hbound hb hmemhb
      have hblk : s.blocks[hb.blockIdx]? = some s.blocks[hb.blockIdx] :=
        List.getElem?_eq_getElem hidx
      set blk := s.blocks[hb.blockIdx] with hblkdef
      have hbody' : blk.hasBody = true := hbody hb.blockIdx blk hblk
      obtain ⟨pose, hpose⟩ : ∃ pose, s.robot.chassis = some pose := by
        cases hch : s.robot.chassis with
        | none =>
          rw [hnone hch] at hconcat
          exact absurd hconcat.symm (List.append_ne_nil_of_right_ne_nil l
            (by simp))
        | some pose => exact ⟨pose, rfl⟩
      have hout := @outtake_concat_spec s l hb blk pose hconcat hblk hbody'
        hpose
      rw [hout] at h
      cases h
      have hcount : refCount s hb.blockIdx = refCountL l hb.blockIdx + 1 := by
        rw [refCount, hconcat]
        have := refCountL_concat l hb hb.blockIdx
        rw [pushBack] at this
        rw [this, if_pos rfl]
      have hzero : refCountL l hb.blockIdx = 0 := by
        rcases hone hb.blockIdx blk hblk with ⟨_, hc⟩ | ⟨_, hc⟩ <;>
          omega
      refine ⟨?_, ?_, ?_, ?_, ?_⟩
      · intro hb' hmem
        rw [List.length_set]
        refine hbound hb' ?_
        rw [hconcat]
        exact List.mem_append_left _ hmem
      · intro j b hj
        by_cases hji : j = hb.blockIdx
        · subst hji
          rw [List.getElem?_set_eq_of_lt _ hidx] at hj
          cases hj
          simpa [ejectedBlock] using hbody'
        · rw [List.getElem?_set_ne (Ne.symm hji)] at hj
          exact hbody j b hj
      · show l.length ≤ maxHeldBlocks
        have : s.robot.heldBlocks.length = l.length + 1 := by
          rw [hconcat]
          simp
        omega
      · intro hcn
        rw [hpose] at hcn
        cases hcn
      · intro j b hj
        have hrc : ∀ k, refCount { s with
            robot := { s.robot with heldBlocks := l },
            blocks := s.blocks.set hb.blockIdx (ejectedBlock pose blk) } k =
            refCountL l k := fun _ => rfl
        by_cases hji : j = hb.blockIdx
        · subst hji
          rw [List.getElem?_set_eq_of_lt _ hidx] at hj
          cases hj
          exact Or.inl ⟨by simp [ejectedBlock], by rw [hrc]; exact hzero⟩
        · rw [List.getElem?_set_ne (Ne.symm hji)] at hj
          have hsame : refCountL l j = refCount s j := by
            rw [refCount, hconcat]
            have := refCountL_concat l hb j
            rw [pushBack] at this
            rw [this, if_neg fun hh => hji hh.symm]
            omega
          rw [hrc, hsame]
          exact hone j b hj
  | update _ dt h =>
    obtain ⟨hcs, hwj, hth, htu, hhb, hjc, hblocks⟩ := h
    have hhb' : s'.robot.heldBlocks = s.robot.heldBlocks := by
      rw [hhb]
      exact robotUpdate_heldBlocks s.robot dt
    have hlen' : s.blocks.length = s'.blocks.length := hblocks.length_eq
    refine ⟨?_, ?_, ?_, ?_, ?_⟩
    · intro hb hmem
      rw [hhb'] at hmem
      rw [← hlen']
      exact hbound hb hmem
    · intro j b hj
      obtain ⟨a, ha, rel⟩ := forall2_getElem?_right hblocks hj
      rw [rel.1]
      exact hbody j a ha
    · rw [hhb']
      exact hlen
    · intro hcn
      rw [hhb']
      refine hnone ?_
      have : s'.robot.chassis.isSome = false := by
        rw [hcn]
        rfl
      rw [hcs, robotUpdate_chassis] at this
      exact Option.not_isSome_iff_eq_none.mp (by rw [this]; simp)
    · intro j b hj
      obtain ⟨a, ha, rel⟩ := forall2_getElem?_right hblocks hj
      have hrc : refCount s' j = refCount s j := by
        rw [refCount, refCount, hhb']
      rw [rel.2.2.1, hrc]
      exact hone j a ha

/-- Every reachable session state satisfies the master invariant. -/
theorem reachable_Inv {s : SimState} (h : Reachable s) : SessionInv s := by
  induction h with
  | init c => exact initState_Inv c
  | step _ st ih => exact step_preserves_Inv ih st

-- ## Properties of the selection loop

theorem selectFrom_le (fp : Vec3) (rest : List BlockState) :
    ∀ (idx : ℕ) (bestSq : ℚ) (best : Option ℕ),
      (selectFrom fp idx rest bestSq best).1 ≤ bestSq ∧
      (∀ m : ℕ, ∀ bk : BlockState, rest[m]? = some bk → bk.held = false →
        bk.hasBody = true →
        (selectFrom fp idx rest bestSq best).1 ≤ distSq fp bk.pos) := by
  induction rest with
  | nil =>
    intro idx bestSq best
    refine ⟨le_refl _, ?_⟩
    intro m bk h
    rw [List.getElem?_eq_none (by simp)] at h
    cases h
  | cons b bs ih =>
    intro idx bestSq best
    unfold selectFrom
    by_cases hskip : (b.held || !b.hasBody) = true
    · rw [if_pos hskip]
      refine ⟨(ih (idx + 1) bestSq best).1, ?_⟩
      intro m bk h hh hb
      cases m with
      | zero =>
        simp only [List.getElem?_cons_zero] at h
        cases h
        simp [hh, hb] at hskip
      | succ m =>
        simp only [List.getElem?_cons_succ] at h
        exact (ih (idx + 1) bestSq best).2 m bk h hh hb
    · rw [if_neg hskip]
      simp only []
      by_cases hlt : distSq fp b.pos < bestSq
      · rw [if_pos hlt]
        refine ⟨le_trans (ih (idx + 1) _ _).1 (le_of_lt hlt), ?_⟩
        intro m bk h hh hb
        cases m with
        | zero =>
          simp only [List.getElem?_cons_zero] at h
          cases h
          exact (ih (idx + 1) _ _).1
        | succ m =>
          simp only [List.getElem?_cons_succ] at h
          exact (ih (idx + 1) _ _).2 m bk h hh hb
      · rw [if_neg hlt]
        refine ⟨(ih (idx + 1) bestSq best).1, ?_⟩
        intro m bk h hh hb
        cases m with
        | zero =>
          simp only [List.getElem?_cons_zero] at h
          cases h
          exact le_trans (ih (idx + 1) bestSq best).1 (le_of_not_lt hlt)
        | succ m =>
          simp only [List.getElem?_cons_succ] at h
          exact (ih (idx + 1) bestSq best).2 m bk h hh hb

theorem selectFrom_source (fp : Vec3) (rest : List BlockState) :
    ∀ (idx : ℕ) (bestSq : ℚ) (best : Option ℕ),
      ((selectFrom fp idx rest bestSq best).2 = best ∧
       (selectFrom fp idx rest bestSq best).1 = bestSq) ∨
      (∃ m bk, rest[m]? = some bk ∧ bk.held = false ∧ bk.hasBody = true ∧
        (selectFrom fp idx rest bestSq best).2 = some (idx + m) ∧
        (selectFrom fp idx rest bestSq best).1 = distSq fp bk.pos) := by
  induction rest with
  | nil =>
    intro idx bestSq best
    exact Or.inl ⟨rfl, rfl⟩
  | cons b bs ih =>
    intro idx bestSq best
    unfold selectFrom
    by_cases hskip : (b.held || !b.hasBody) = true
    · rw [if_pos hskip]
      rcases ih (idx + 1) bestSq best with h | ⟨m, bk, hget, hh, hb, h2, h1⟩
      · exact Or.inl h
      · refine Or.inr ⟨m + 1, bk, ?_, hh, hb, ?_, h1⟩
        · simpa using hget
        · rw [h2]
          exact congrArg some (by omega)
    · rw [if_neg hskip]
      simp only [Bool.or_eq_true, Bool.not_eq_true'] at hskip
      push_neg at hskip
      have hh0 : b.held = false := Bool.eq_false_iff.mpr hskip.1
      have hb0 : b.hasBody = true := by
        have := hskip.2
        revert this
        cases b.hasBody <;> simp
      simp only []
      by_cases hlt : distSq fp b.pos < bestSq
      · rw [if_pos hlt]
        rcases ih (idx + 1) (distSq fp b.pos) (some idx) with ⟨h2, h1⟩ |
          ⟨m, bk, hget, hh, hb, h2, h1⟩
        · refine Or.inr ⟨0, b, by simp, hh0, hb0, ?_, h1⟩
          rw [h2]
          exact congrArg some (by omega)
        · refine Or.inr ⟨m + 1, bk, by simpa using hget, hh, hb, ?_, h1⟩
          rw [h2]
          exact congrArg some (by omega)
      · rw [if_neg hlt]
        rcases ih (idx + 1) bestSq best with h | ⟨m, bk, hget, hh, hb, h2, h1⟩
        · exact Or.inl h
        · refine Or.inr ⟨m + 1, bk, by simpa using hget, hh, hb, ?_, h1⟩
          rw [h2]
          exact congrArg some (by omega)

theorem selectBestBlock_min (fp : Vec3) (blocks : List BlockState) (j : ℕ)
    (h : selectBestBlock fp blocks = some j) :
    ∃ bj, blocks[j]? = some bj ∧ bj.held = false ∧ bj.hasBody = true ∧
      ∀ k : ℕ, ∀ bk : BlockState, blocks[k]? = some bk → bk.held = false →
        bk.hasBody = true → distSq fp bj.pos ≤ distSq fp bk.pos := by
  rcases selectFrom_source fp blocks 0 (999 * 999) none with ⟨h2, _⟩ |
    ⟨m, bk, hget, hh, hb, h2, h1⟩
  · rw [selectBestBlock, h2] at h
    cases h
  · rw [selectBestBlock, h2] at h
    have hjm : j = m := by simpa using h.symm
    subst hjm
    refine ⟨bk, hget, hh, hb, ?_⟩
    intro k bk' hget' hh' hb'
    have hle := (selectFrom_le fp blocks 0 (999 * 999) none).2 k bk' hget' hh' hb'
    rw [h1] at hle
    exact hle

-- ## TryIntake behavior when joint creation fails

theorem tryIntake_false_snd (s : SimState) (i : ℕ) :
    (tryIntake s i false).2 = false := by
  cases hres : tryIntake s i false with
  | mk s' b =>
    cases b with
    | false => rfl
    | true =>
      obtain ⟨_, _, hj, _⟩ := tryIntake_success_spec hres
      cases hj

theorem tryIntake_jointFail_spec (s : SimState) (i : ℕ) {cp : Pose}
    {blk : BlockState} (hcp : s.robot.chassis = some cp)
    (hblk : s.blocks[i]? = some blk) (hheld : blk.held = false)
    (hbody : blk.hasBody = true)
    (hnotfull : s.robot.heldBlocks.length < maxHeldBlocks)
    (hrange : distSq (getFrontPosition s.robot) blk.pos ≤ intakeRangeSq) :
    tryIntake s i false =
      ({ s with blocks := s.blocks.set i (intakeMutBlock cp blk) }, false) := by
  have hfull : isIntakeFull s.robot = false := by
    simp only [isIntakeFull, decide_eq_false_iff_not, Nat.not_le]
    exact hnotfull
  unfold tryIntake
  rw [hcp, hblk]
  simp only [hheld, hbody, Bool.not_true, Bool.or_false, if_false, hfull,
    Bool.false_eq_true, if_neg (not_lt.mpr hrange)]
  simp [intakeMutBlock, hheld, hbody]

theorem tryIntake_success_eq (s : SimState) (i : ℕ) {cp : Pose}
    {blk : BlockState} (hcp : s.robot.chassis = some cp)
    (hblk : s.blocks[i]? = some blk) (hheld : blk.held = false)
    (hbody : blk.hasBody = true)
    (hnotfull : s.robot.heldBlocks.length < maxHeldBlocks)
    (hrange : distSq (getFrontPosition s.robot) blk.pos ≤ intakeRangeSq) :
    tryIntake s i true = (intakeSuccessState s i cp blk, true) := by
  have hfull : isIntakeFull s.robot = false := by
    simp only [isIntakeFull, decide_eq_false_iff_not, Nat.not_le]
    exact hnotfull
  unfold tryIntake
  rw [hcp, hblk]
  simp only [hheld, hbody, Bool.not_true, Bool.or_false, if_false, hfull,
    Bool.false_eq_true, if_neg (not_lt.mpr hrange)]
  simp [intakeSuccessState, intakeMutBlock, hheld, hbody, List.set_set]

-- ## C5: collision filter shader semantics

/-- C5: for every pair of non-trigger shapes the filter shader generates
a contact with touch notification iff (category0 & mask1) != 0 and
(category1 & mask0) != 0, and suppresses the pair entirely otherwise; a
pair containing a trigger always passes with trigger-only semantics
regardless of the masks. -/
theorem claim_C5_filter_shader (t0 t1 : Bool) (fd0 fd1 : PxFilterData) :
    (t0 = false → t1 = false →
      ((vehicleFilterShader t0 fd0 t1 fd1 = FilterVerdict.contactNotify ↔
         (fd0.word0 &&& fd1.word1 ≠ 0 ∧ fd1.word0 &&& fd0.word1 ≠ 0)) ∧
       (vehicleFilterShader t0 fd0 t1 fd1 = FilterVerdict.suppressed ↔
         ¬(fd0.word0 &&& fd1.word1 ≠ 0 ∧ fd1.word0 &&& fd0.word1 ≠ 0)))) ∧
    ((t0 = true ∨ t1 = true) →
      vehicleFilterShader t0 fd0 t1 fd1 = FilterVerdict.triggerPass) := by
  constructor
  · rintro rfl rfl
    by_cases h1 : fd0.word0 &&& fd1.word1 = 0 <;>
      by_cases h2 : fd1.word0 &&& fd0.word1 = 0 <;>
        simp [vehicleFilterShader, h1, h2]
  · rintro (rfl | rfl) <;> simp [vehicleFilterShader]

/-- Witness for C5 at concrete filter data: a block/ground pair notifies,
a category-zero pair is suppressed, and a trigger pair passes. -/
theorem claim_C5_witness :
    vehicleFilterShader false ⟨16, 31⟩ false ⟨1, 31⟩ =
      FilterVerdict.contactNotify ∧
    vehicleFilterShader false ⟨16, 0⟩ false ⟨1, 31⟩ =
      FilterVerdict.suppressed ∧
    vehicleFilterShader true ⟨16, 0⟩ false ⟨1, 31⟩ =
      FilterVerdict.triggerPass :=
  ⟨((claim_C5_filter_shader false false ⟨16, 31⟩ ⟨1, 31⟩).1 rfl rfl).1.mpr
      (by decide),
   ((claim_C5_filter_shader false false ⟨16, 0⟩ ⟨1, 31⟩).1 rfl rfl).2.mpr
      (by decide),
   (claim_C5_filter_shader true false ⟨16, 0⟩ ⟨1, 31⟩).2 (Or.inl rfl)⟩

-- ## C7: drive input clamping and joint commands

/-- C7: SetDriveInput(2, -2) followed by Update(dt) issues exactly the
same joint commands as SetDriveInput(1, -1) followed by Update(dt); on a
live chassis, Update sets each of the first four (left-side) joints to
clamped-left * 20 rad/s and the rest to clamped-right * 20 rad/s, always
re-asserting the DRIVE_TORQUE force limit. -/
theorem claim_C7_clamping (r : RobotState) (dt : ℚ) :
    (robotUpdate (setDriveInput r 2 (-2)) dt).wheelJoints =
      (robotUpdate (setDriveInput r 1 (-1)) dt).wheelJoints ∧
    (∀ pose : Pose, r.chassis = some pose →
      ∀ i : ℕ, i < r.wheelJoints.length →
        (robotUpdate r dt).wheelJoints[i]? =
          some ⟨(if i < 4 then clamp1 r.throttleInput
                 else clamp1 r.turnInput) * 20, driveTorque⟩) := by
  constructor
  · have h2 : clamp1 2 = clamp1 1 := by norm_num [clamp1]
    have hm2 : clamp1 (-2) = clamp1 (-1) := by norm_num [clamp1]
    cases hch : r.chassis with
    | none => simp [robotUpdate, setDriveInput, hch]
    | some pose =>
      simp only [robotUpdate, setDriveInput, hch]
      simp only [h2, hm2]
  · intro pose hch i hi
    simp only [robotUpdate, hch]
    rw [List.getElem?_mapIdx]
    simp [List.getElem?_eq_getElem hi]

/-- Witness for C7 on a concrete drivetrain with out-of-range inputs. -/
theorem claim_C7_witness :
    ((robotUpdate (setDriveInput demoRobot 2 (-2)) (1/60)).wheelJoints =
      (robotUpdate (setDriveInput demoRobot 1 (-1)) (1/60)).wheelJoints) ∧
    (robotUpdate demoRobot (1/60)).wheelJoints[0]? =
      some ⟨(if (0 : ℕ) < 4 then clamp1 demoRobot.throttleInput
             else clamp1 demoRobot.turnInput) * 20, driveTorque⟩ ∧
    (robotUpdate demoRobot (1/60)).wheelJoints[7]? =
      some ⟨(if (7 : ℕ) < 4 then clamp1 demoRobot.throttleInput
             else clamp1 demoRobot.turnInput) * 20, driveTorque⟩ :=
  ⟨(claim_C7_clamping demoRobot (1/60)).1,
   (claim_C7_clamping demoRobot (1/60)).2 idPose rfl 0 (by decide),
   (claim_C7_clamping demoRobot (1/60)).2 idPose rfl 7 (by decide)⟩

-- ## C8: fixed-step drain of the frame accumulator

theorem physicsTimestep_pos : 0 < physicsTimestep := by
  norm_num [physicsTimestep]

/-- C8: with 2.5 fixed timesteps accumulated, the drain loop issues
exactly Robot::Update, PhysicsWorld::Update, Robot::Update,
PhysicsWorld::Update (two of each, robot before physics in each step)
and leaves exactly half a timestep in the accumulator. -/
theorem claim_C8_fixed_step_drain :
    (drainAccumulator physicsTimestep physicsTimestep_pos
        (5/2 * physicsTimestep)).1 =
      [FixedCall.robotUpdateCall physicsTimestep,
       FixedCall.physicsUpdateCall physicsTimestep,
       FixedCall.robotUpdateCall physicsTimestep,
       FixedCall.physicsUpdateCall physicsTimestep] ∧
    (drainAccumulator physicsTimestep physicsTimestep_pos
        (5/2 * physicsTimestep)).2 = (1/2) * physicsTimestep := by
  have h2 : drainAccumulator physicsTimestep physicsTimestep_pos
      (1/120 : ℚ) = ([], 1/120) := by
    rw [drainAccumulator]
    rw [dif_neg (by norm_num [physicsTimestep])]
  have h1 : drainAccumulator physicsTimestep physicsTimestep_pos
      (1/40 : ℚ) =
      ([FixedCall.robotUpdateCall physicsTimestep,
        FixedCall.physicsUpdateCall physicsTimestep], 1/120) := by
    rw [drainAccumulator]
    rw [dif_pos (by norm_num [physicsTimestep] : physicsTimestep ≤ (1/40 : ℚ))]
    simp only [show (1/40 - physicsTimestep : ℚ) = 1/120 from by
      norm_num [physicsTimestep], h2]
  have h0 : drainAccumulator physicsTimestep physicsTimestep_pos
      (5/2 * physicsTimestep) =
      ([FixedCall.robotUpdateCall physicsTimestep,
        FixedCall.physicsUpdateCall physicsTimestep,
        FixedCall.robotUpdateCall physicsTimestep,
        FixedCall.physicsUpdateCall physicsTimestep], 1/120) := by
    rw [drainAccumulator]
    rw [dif_pos (by norm_num [physicsTimestep] :
      physicsTimestep ≤ (5/2 * physicsTimestep : ℚ))]
    simp only [show (5/2 * physicsTimestep - physicsTimestep : ℚ) = 1/40 from by
      norm_num [physicsTimestep], h1]
  rw [h0]
  refine ⟨rfl, ?_⟩
  norm_num [physicsTimestep]

-- ## C1: held flag vs HeldBlock references

/-- C1: in every reachable state (any sequence of spawn, TryIntake,
Outtake and Update events), each spawned block is either free and
referenced by no HeldBlock record, or held and referenced by exactly one
HeldBlock record — never both, never neither. -/
theorem claim_C1_held_exclusive (s : SimState) (hs : Reachable s) (i : ℕ)
    (blk : BlockState) (hblk : s.blocks[i]? = some blk) :
    Xor' (blk.held = false ∧ refCount s i = 0)
         (blk.held = true ∧ refCount s i = 1) := by
  obtain ⟨_, _, _, _, hone⟩ := reachable_Inv hs
  rcases hone i blk hblk with ⟨h1, h2⟩ | ⟨h1, h2⟩
  · refine Or.inl ⟨⟨h1, h2⟩, ?_⟩
    rintro ⟨hh, _⟩
    rw [h1] at hh
    cases hh
  · refine Or.inr ⟨⟨h1, h2⟩, ?_⟩
    rintro ⟨hh, _⟩
    rw [h1] at hh
    cases hh

/-- Witness for C1 on the reachable state reached by one spawn. -/
theorem claim_C1_witness :
    Xor' ((freeBlockAt ⟨0, 0, 1⟩).held = false ∧
          refCount (spawnBlock (initState (some idPose)) BlockColor.RED
            ⟨0, 0, 1⟩) 0 = 0)
         ((freeBlockAt ⟨0, 0, 1⟩).held = true ∧
          refCount (spawnBlock (initState (some idPose)) BlockColor.RED
            ⟨0, 0, 1⟩) 0 = 1) :=
  claim_C1_held_exclusive _
    (Reachable.step (Reachable.init (some idPose))
      (Step.spawn (initState (some idPose)) BlockColor.RED ⟨0, 0, 1⟩))
    0 (freeBlockAt ⟨0, 0, 1⟩) rfl

-- ## C2: capacity bound and at-capacity no-op

/-- C2: in every reachable state the held sequence length is at most
MAX_HELD_BLOCKS = 8 (and at least 0, being a natural number); TryIntake
called with 8 blocks already held returns false and returns the state
exactly unchanged — in particular no HeldBlock record, no joint-counter
increment, and no block pose/velocity/filter mutation. -/
theorem claim_C2_capacity (s : SimState) :
    (Reachable s → s.robot.heldBlocks.length ≤ maxHeldBlocks) ∧
    (∀ i : ℕ, ∀ jointOk : Bool,
      maxHeldBlocks ≤ s.robot.heldBlocks.length →
      tryIntake s i jointOk = (s, false)) :=
  ⟨fun hs => (reachable_Inv hs).2.2.1,
   fun i jointOk hfull => tryIntake_at_capacity s i jointOk hfull⟩

/-- Witness for C2: the initial state obeys the bound, and TryIntake on
a concrete 8-held session with a free in-range candidate is a no-op. -/
theorem claim_C2_witness :
    (initState (some idPose)).robot.heldBlocks.length ≤ maxHeldBlocks ∧
    tryIntake fullState 0 true = (fullState, false) :=
  ⟨(claim_C2_capacity (initState (some idPose))).1 (Reachable.init _),
   (claim_C2_capacity fullState).2 0 true (by decide)⟩

-- ## C9: degradation after chassis construction failure

/-- C9: in any reachable session whose chassis failed to construct,
Update leaves the robot unchanged, GetTransformMatrix returns the
identity matrix, GetFrontPosition returns the origin, TryIntake returns
false without touching the state, and — because the held sequence stays
empty in such a session — Outtake is a no-op (its body dereferences the
chassis only beyond the nonempty guard, which never passes). -/
theorem claim_C9_chassis_failure (s : SimState) (hs : Reachable s)
    (hch : s.robot.chassis = none) :
    (∀ dt : ℚ, robotUpdate s.robot dt = s.robot) ∧
    (∀ k : ℚ, getTransformMatrix s.robot k = 1) ∧
    getFrontPosition s.robot = Vec3.zero ∧
    (∀ i : ℕ, ∀ jointOk : Bool, tryIntake s i jointOk = (s, false)) ∧
    s.robot.heldBlocks = [] ∧
    outtake s = some s := by
  have hempty : s.robot.heldBlocks = [] := (reachable_Inv hs).2.2.2.1 hch
  refine ⟨?_, ?_, ?_, ?_, hempty, outtake_empty hempty⟩
  · intro dt
    unfold robotUpdate
    rw [hch]
  · intro k
    unfold getTransformMatrix
    rw [hch]
  · unfold getFrontPosition
    rw [hch]
  · intro i jointOk
    unfold tryIntake
    rw [hch]

/-- Witness for C9 on the reachable chassis-less initial state. -/
theorem claim_C9_witness :
    robotUpdate (initState none).robot (1/60) = (initState none).robot ∧
    getTransformMatrix (initState none).robot (1/100) = 1 ∧
    getFrontPosition (initState none).robot = Vec3.zero ∧
    tryIntake (initState none) 0 true = (initState none, false) ∧
    (initState none).robot.heldBlocks = [] ∧
    outtake (initState none) = some (initState none) :=
  ⟨(claim_C9_chassis_failure _ (Reachable.init none) rfl).1 (1/60),
   (claim_C9_chassis_failure _ (Reachable.init none) rfl).2.1 (1/100),
   (claim_C9_chassis_failure _ (Reachable.init none) rfl).2.2.1,
   (claim_C9_chassis_failure _ (Reachable.init none) rfl).2.2.2.1 0 true,
   (claim_C9_chassis_failure _ (Reachable.init none) rfl).2.2.2.2.1,
   (claim_C9_chassis_failure _ (Reachable.init none) rfl).2.2.2.2.2⟩

-- ## C3: LIFO release order

theorem intakeSuccessState_getElem_self {s : SimState} {i : ℕ} {cp : Pose}
    {blk : BlockState} (hi : i < s.blocks.length) :
    (intakeSuccessState s i cp blk).blocks[i]? =
      some { intakeMutBlock cp blk with held := true } := by
  simp only [intakeSuccessState]
  exact List.getElem?_set_eq_of_lt _ hi

theorem intakeSuccessState_getElem_ne {s : SimState} {i j : ℕ} {cp : Pose}
    {blk : BlockState} (hne : i ≠ j) :
    (intakeSuccessState s i cp blk).blocks[j]? = s.blocks[j]? := by
  simp only [intakeSuccessState]
  exact List.getElem?_set_ne hne

theorem intakeSuccessState_blocks_length (s : SimState) (i : ℕ) (cp : Pose)
    (blk : BlockState) :
    (intakeSuccessState s i cp blk).blocks.length = s.blocks.length := by
  simp [intakeSuccessState]

/-- C3: after three successive successful TryIntake calls on blocks p1,
p2, p3, a single Outtake pops the most recently appended HeldBlock
record — the one referencing p3 — releasing p3 (its held flag becomes
false) while p1 and p2 stay held. -/
theorem claim_C3_lifo (s s1 s2 s3 : SimState) (p1 p2 p3 : ℕ)
    (j1 j2 j3 : Bool)
    (h1 : tryIntake s p1 j1 = (s1, true))
    (h2 : tryIntake s1 p2 j2 = (s2, true))
    (h3 : tryIntake s2 p3 j3 = (s3, true)) :
    ∃ s4, outtake s3 = some s4 ∧
      (backOpt s3.robot.heldBlocks).map HeldBlock.blockIdx = some p3 ∧
      s4.robot.heldBlocks = popBack s3.robot.heldBlocks ∧
      (s4.blocks[p3]?).map BlockState.held = some false ∧
      (s4.blocks[p1]?).map BlockState.held = some true ∧
      (s4.blocks[p2]?).map BlockState.held = some true := by
  obtain ⟨cp1, bA, hj1, hcp1, hgA, hhA, hbA, hl1, hd1, he1⟩ :=
    tryIntake_success_spec h1
  obtain ⟨cp2, bB, hj2, hcp2, hgB, hhB, hbB, hl2, hd2, he2⟩ :=
    tryIntake_success_spec h2
  obtain ⟨cp3, bC, hj3, hcp3, hgC, hhC, hbC, hl3, hd3, he3⟩ :=
    tryIntake_success_spec h3
  subst he1
  subst he2
  subst he3
  have hp1 : p1 < s.blocks.length := getElem?_some_lt hgA
  have hp2 : p2 < s.blocks.length := by
    have := getElem?_some_lt hgB
    rwa [intakeSuccessState_blocks_length] at this
  have hp3 : p3 < (intakeSuccessState s p1 cp1 bA).blocks.length := by
    have := getElem?_some_lt hgC
    rwa [intakeSuccessState_blocks_length] at this
  have hs1p1 : ((intakeSuccessState s p1 cp1 bA).blocks[p1]?).map
      BlockState.held = some true := by
    rw [intakeSuccessState_getElem_self hp1]
    rfl
  have hne21 : p2 ≠ p1 := by
    intro he
    rw [he] at hgB
    have hfalse : ((intakeSuccessState s p1 cp1 bA).blocks[p1]?).map
        BlockState.held = some false := by
      rw [hgB]
      simp [hhB]
    have := hs1p1.symm.trans hfalse
    simp at this
  have hs2p1 : ((intakeSuccessState (intakeSuccessState s p1 cp1 bA) p2 cp2
      bB).blocks[p1]?).map BlockState.held = some true := by
    rw [intakeSuccessState_getElem_ne hne21]
    exact hs1p1
  have hs2p2 : ((intakeSuccessState (intakeSuccessState s p1 cp1 bA) p2 cp2
      bB).blocks[p2]?).map BlockState.held = some true := by
    rw [intakeSuccessState_getElem_self (by rwa [intakeSuccessState_blocks_length])]
    rfl
  have hne31 : p3 ≠ p1 := by
    intro he
    rw [he] at hgC
    have hfalse : ((intakeSuccessState (intakeSuccessState s p1 cp1 bA) p2 cp2
        bB).blocks[p1]?).map BlockState.held = some false := by
      rw [hgC]
      simp [hhC]
    have := hs2p1.symm.trans hfalse
    simp at this
  have hne32 : p3 ≠ p2 := by
    intro he
    rw [he] at hgC
    have hfalse : ((intakeSuccessState (intakeSuccessState s p1 cp1 bA) p2 cp2
        bB).blocks[p2]?).map BlockState.held = some false := by
      rw [hgC]
      simp [hhC]
    have := hs2p2.symm.trans hfalse
    simp at this
  have hblkC : (intakeSuccessState (intakeSuccessState (intakeSuccessState s
      p1 cp1 bA) p2 cp2 bB) p3 cp3 bC).blocks[p3]? =
      some { intakeMutBlock cp3 bC with held := true } :=
    intakeSuccessState_getElem_self (getElem?_some_lt hgC)
  have hbodyC : ({ intakeMutBlock cp3 bC with held := true } :
      BlockState).hasBody = true := by
    simpa [intakeMutBlock] using hbC
  have hout := @outtake_concat_spec
    (intakeSuccessState (intakeSuccessState (intakeSuccessState s p1 cp1 bA)
      p2 cp2 bB) p3 cp3 bC)
    ((intakeSuccessState (intakeSuccessState s p1 cp1 bA) p2 cp2
      bB).robot.heldBlocks)
    ⟨p3, (intakeSuccessState (intakeSuccessState s p1 cp1 bA) p2 cp2
      bB).jointsCreated⟩
    { intakeMutBlock cp3 bC with held := true }
    cp3 rfl hblkC hbodyC hcp3
  refine ⟨_, hout, ?_, ?_, ?_, ?_, ?_⟩
  · show (backOpt (pushBack _ _)).map HeldBlock.blockIdx = some p3
    rw [backOpt, pushBack, List.getLast?_concat]
    rfl
  · show _ = popBack (pushBack _ _)
    rw [popBack, pushBack, List.dropLast_concat]
  · have hlt : p3 < (intakeSuccessState (intakeSuccessState (intakeSuccessState
        s p1 cp1 bA) p2 cp2 bB) p3 cp3 bC).blocks.length := by
      rw [intakeSuccessState_blocks_length]
      exact getElem?_some_lt hgC
    show ((List.set _ p3 _)[p3]?).map BlockState.held = some false
    rw [List.getElem?_set_eq_of_lt _ (by
      rw [intakeSuccessState_blocks_length] at hlt ⊢
      exact hlt)]
    rfl
  · show ((List.set _ p3 _)[p1]?).map BlockState.held = some true
    rw [List.getElem?_set_ne hne31, intakeSuccessState_getElem_ne hne31]
    exact hs2p1
  · show ((List.set _ p3 _)[p2]?).map BlockState.held = some true
    rw [List.getElem?_set_ne hne32, intakeSuccessState_getElem_ne hne32]
    exact hs2p2

theorem demo_intake1 : tryIntake demoStart 0 true = (demoAfter1, true) :=
  tryIntake_success_eq demoStart 0 rfl rfl rfl rfl (by decide)
    (by norm_num [demoStart, freeBlockAt, getFrontPosition, idPose,
      Pose.transform, Quat.rotate, Quat.one, Vec3.add, Vec3.zero, distSq,
      Vec3.sub, Vec3.magSq, robotLength, intakeRangeSq, intakeRange])

theorem demo_intake2 : tryIntake demoAfter1 1 true = (demoAfter2, true) :=
  tryIntake_success_eq demoAfter1 1 rfl rfl rfl rfl (by decide)
    (by norm_num [demoAfter1, intakeSuccessState, demoStart, freeBlockAt,
      getFrontPosition, idPose, Pose.transform, Quat.rotate, Quat.one,
      Vec3.add, Vec3.zero, distSq, Vec3.sub, Vec3.magSq, robotLength,
      intakeRangeSq, intakeRange])

theorem demo_intake3 : tryIntake demoAfter2 2 true = (demoAfter3, true) :=
  tryIntake_success_eq demoAfter2 2 rfl rfl rfl rfl (by decide)
    (by norm_num [demoAfter2, demoAfter1, intakeSuccessState, demoStart,
      freeBlockAt, getFrontPosition, idPose, Pose.transform, Quat.rotate,
      Quat.one, Vec3.add, Vec3.zero, distSq, Vec3.sub, Vec3.magSq,
      robotLength, intakeRangeSq, intakeRange])

/-- Witness for C3 on a concrete run intaking blocks 0, 1, 2. -/
theorem claim_C3_witness :
    ∃ s4, outtake demoAfter3 = some s4 ∧
      (backOpt demoAfter3.robot.heldBlocks).map HeldBlock.blockIdx = some 2 ∧
      s4.robot.heldBlocks = popBack demoAfter3.robot.heldBlocks ∧
      (s4.blocks[2]?).map BlockState.held = some false ∧
      (s4.blocks[0]?).map BlockState.held = some true ∧
      (s4.blocks[1]?).map BlockState.held = some true :=
  claim_C3_lifo demoStart demoAfter1 demoAfter2 demoAfter3 0 1 2
    true true true demo_intake1 demo_intake2 demo_intake3

-- ## C4: joint-creation failure is NOT mutation-free

/-- Counterexample to C4 as stated: on a concrete session with a free
in-range block, a failing PxFixedJointCreate still leaves the pre-joint
mutations observable — the state differs from the original and the
block's collision filter has been zeroed (it was the standard row). -/
theorem claim_C4_counterexample :
    (tryIntake demoStart 0 false).2 = false ∧
    (tryIntake demoStart 0 false).1 ≠ demoStart ∧
    ((tryIntake demoStart 0 false).1.blocks[0]?).map BlockState.filter =
      some ⟨0, 0⟩ ∧
    (demoStart.blocks[0]?).map BlockState.filter = some spawnBlockFilter ∧
    ((tryIntake demoStart 0 false).1.blocks[0]?).map BlockState.held =
      some false := by
  have hmut := @tryIntake_jointFail_spec demoStart 0 idPose
    (freeBlockAt ⟨0, 0, 1/4⟩) rfl rfl rfl rfl (by decide)
    (by norm_num [demoStart, freeBlockAt, getFrontPosition, idPose,
      Pose.transform, Quat.rotate, Quat.one, Vec3.add, Vec3.zero, distSq,
      Vec3.sub, Vec3.magSq, robotLength, intakeRangeSq, intakeRange])
  rw [hmut]
  refine ⟨rfl, ?_, rfl, rfl, rfl⟩
  intro h
  have hfil := congrArg (fun st => (st.blocks[0]?).map BlockState.filter) h
  exact absurd hfil (by decide)

/-- C4 amended: when joint creation fails TryIntake returns false, the
robot state (in particular the held sequence) and the joint counter are
unchanged, and every block's held flag is unchanged — the block remains
free — but when the guards had passed, the teleport to the chassis
center, the velocity zeroing and the filter zeroing performed before the
joint attempt remain observable on the block. -/
theorem claim_C4_joint_failure (s : SimState) (i : ℕ) :
    (tryIntake s i false).2 = false ∧
    (tryIntake s i false).1.robot = s.robot ∧
    (tryIntake s i false).1.jointsCreated = s.jointsCreated ∧
    (∀ j : ℕ, ((tryIntake s i false).1.blocks[j]?).map BlockState.held =
      (s.blocks[j]?).map BlockState.held) ∧
    (∀ cp : Pose, ∀ blk : BlockState, s.robot.chassis = some cp →
      s.blocks[i]? = some blk → blk.held = false → blk.hasBody = true →
      s.robot.heldBlocks.length < maxHeldBlocks →
      distSq (getFrontPosition s.robot) blk.pos ≤ intakeRangeSq →
      (tryIntake s i false).1.blocks[i]? = some (intakeMutBlock cp blk)) := by
  have hsnd := tryIntake_false_snd s i
  have hlast : ∀ cp : Pose, ∀ blk : BlockState, s.robot.chassis = some cp →
      s.blocks[i]? = some blk → blk.held = false → blk.hasBody = true →
      s.robot.heldBlocks.length < maxHeldBlocks →
      distSq (getFrontPosition s.robot) blk.pos ≤ intakeRangeSq →
      (tryIntake s i false).1.blocks[i]? = some (intakeMutBlock cp blk) := by
    intro cp blk hcp hblk hheld hbody hnf hr
    rw [tryIntake_jointFail_spec s i hcp hblk hheld hbody hnf hr]
    exact List.getElem?_set_eq_of_lt _ (getElem?_some_lt hblk)
  rcases tryIntake_fst_shape s i false with hsame |
    ⟨cp, blk, hcp, hblk, hheld, hbody, hcase⟩
  · exact ⟨hsnd, by rw [hsame], by rw [hsame], fun j => by rw [hsame], hlast⟩
  rcases hcase with ⟨_, heq⟩ | ⟨hjt, _, _⟩
  · have h1 : (tryIntake s i false).1 =
        { s with blocks := s.blocks.set i (intakeMutBlock cp blk) } := by
      rw [heq]
    refine ⟨hsnd, by rw [h1], by rw [h1], ?_, hlast⟩
    intro j
    rw [h1]
    by_cases hji : j = i
    · subst hji
      show ((s.blocks.set j (intakeMutBlock cp blk))[j]?).map _ = _
      rw [List.getElem?_set_eq_of_lt _ (getElem?_some_lt hblk), hblk]
      rfl
    · show ((s.blocks.set i _)[j]?).map _ = _
      rw [List.getElem?_set_ne (Ne.symm hji)]
  · cases hjt

/-- Witness for the amended C4 on a concrete in-range block. -/
theorem claim_C4_witness :
    (tryIntake demoStart 1 false).2 = false ∧
    (tryIntake demoStart 1 false).1.robot = demoStart.robot ∧
    (tryIntake demoStart 1 false).1.jointsCreated =
      demoStart.jointsCreated ∧
    ((tryIntake demoStart 1 false).1.blocks[1]?).map BlockState.held =
      (demoStart.blocks[1]?).map BlockState.held ∧
    (tryIntake demoStart 1 false).1.blocks[1]? =
      some (intakeMutBlock idPose (freeBlockAt ⟨0, 0, 1/5⟩)) :=
  ⟨(claim_C4_joint_failure demoStart 1).1,
   (claim_C4_joint_failure demoStart 1).2.1,
   (claim_C4_joint_failure demoStart 1).2.2.1,
   (claim_C4_joint_failure demoStart 1).2.2.2.1 1,
   (claim_C4_joint_failure demoStart 1).2.2.2.2 idPose
     (freeBlockAt ⟨0, 0, 1/5⟩) rfl rfl rfl rfl (by decide)
     (by norm_num [demoStart, freeBlockAt, getFrontPosition, idPose,
       Pose.transform, Quat.rotate, Quat.one, Vec3.add, Vec3.zero, distSq,
       Vec3.sub, Vec3.magSq, robotLength, intakeRangeSq, intakeRange])⟩

-- ## C6: intake range gate and nearest-block selection

/-- C6: TryIntake succeeds only when the candidate block's distance from
the front reference point is at most INTAKE_RANGE = 0.35 (stated on
squared distances, an equivalent comparison); for a strictly greater
distance it returns false with the state exactly unchanged; and whenever
the per-frame intake handler selects a block to pass to TryIntake, that
block is unheld, has a body, and is of minimum distance among all such
spawned blocks. -/
theorem claim_C6_range_and_selection :
    (∀ s : SimState, ∀ i : ℕ, ∀ jointOk : Bool, ∀ s' : SimState,
      tryIntake s i jointOk = (s', true) →
      ∃ blk, s.blocks[i]? = some blk ∧
        distSq (getFrontPosition s.robot) blk.pos ≤
          intakeRange * intakeRange) ∧
    (∀ s : SimState, ∀ i : ℕ, ∀ jointOk : Bool, ∀ blk : BlockState,
      s.blocks[i]? = some blk →
      intakeRange * intakeRange < distSq (getFrontPosition s.robot) blk.pos →
      tryIntake s i jointOk = (s, false)) ∧
    (∀ fp : Vec3, ∀ blocks : List BlockState, ∀ j : ℕ,
      selectBestBlock fp blocks = some j →
      ∃ bj, blocks[j]? = some bj ∧ bj.held = false ∧ bj.hasBody = true ∧
        ∀ k : ℕ, ∀ bk : BlockState, blocks[k]? = some bk → bk.held = false →
          bk.hasBody = true → distSq fp bj.pos ≤ distSq fp bk.pos) := by
  refine ⟨?_, ?_, ?_⟩
  · intro s i jointOk s' h
    obtain ⟨cp, blk, _, _, hblk, _, _, _, hd, _⟩ := tryIntake_success_spec h
    exact ⟨blk, hblk, hd⟩
  · intro s i jointOk blk hblk hr
    exact tryIntake_out_of_range s i jointOk hblk hr
  · intro fp blocks j h
    exact selectBestBlock_min fp blocks j h

/-- Witness for C6: a concrete successful intake is within range, a
concrete out-of-range intake is a no-op, and the handler's selection on
demoStart (index 0) is of minimum distance. -/
theorem claim_C6_witness :
    (∃ blk, demoStart.blocks[0]? = some blk ∧
      distSq (getFrontPosition demoStart.robot) blk.pos ≤
        intakeRange * intakeRange) ∧
    tryIntake farState 0 true = (farState, false) ∧
    (∃ bj, demoStart.blocks[0]? = some bj ∧ bj.held = false ∧
      bj.hasBody = true ∧
      ∀ k : ℕ, ∀ bk : BlockState, demoStart.blocks[k]? = some bk →
        bk.held = false → bk.hasBody = true →
        distSq (getFrontPosition demoStart.robot) bj.pos ≤
          distSq (getFrontPosition demoStart.robot) bk.pos) :=
  ⟨claim_C6_range_and_selection.1 demoStart 0 true demoAfter1 demo_intake1,
   claim_C6_range_and_selection.2.1 farState 0 true (freeBlockAt ⟨0, 0, 5⟩)
     rfl (by norm_num [demoStart, farState, freeBlockAt, getFrontPosition,
       idPose, Pose.transform, Quat.rotate, Quat.one, Vec3.add, Vec3.zero,
       distSq, Vec3.sub, Vec3.magSq, robotLength, intakeRange]),
   claim_C6_range_and_selection.2.2 (getFrontPosition demoStart.robot)
     demoStart.blocks 0
     (by norm_num [selectBestBlock, selectFrom, demoStart, freeBlockAt,
       getFrontPosition, idPose, Pose.transform, Quat.rotate, Quat.one,
       Vec3.add, Vec3.zero, distSq, Vec3.sub, Vec3.magSq, robotLength])⟩

-- ## C10: filter restoration on outtake

/-- C10: every successful Outtake installs on the ejected block exactly
the standard block filter row — category eBLOCK with a mask accepting
Ground, Chassis, Wheel, Obstacle and Block — which equals the row
SpawnBlock installed, exactly undoing the zero category/zero mask that
TryIntake applied at attachment. -/
theorem claim_C10_filter_restoration (s : SimState) (l : List HeldBlock)
    (hb : HeldBlock) (blk : BlockState) (pose : Pose)
    (hl : s.robot.heldBlocks = pushBack l hb)
    (hblk : s.blocks[hb.blockIdx]? = some blk)
    (hbody : blk.hasBody = true)
    (hch : s.robot.chassis = some pose) :
    ∃ s', outtake s = some s' ∧
      (s'.blocks[hb.blockIdx]?).map BlockState.filter =
        some outtakeRestoredFilter ∧
      outtakeRestoredFilter = spawnBlockFilter ∧
      (intakeMutBlock pose blk).filter = ⟨0, 0⟩ := by
  refine ⟨_, outtake_concat_spec hl hblk hbody hch, ?_, by decide, rfl⟩
  show ((List.set _ _ _)[hb.blockIdx]?).map BlockState.filter = _
  rw [List.getElem?_set_eq_of_lt _ (getElem?_some_lt hblk)]
  rfl

/-- Witness for C10 on a concrete one-held session. -/
theorem claim_C10_witness :
    ∃ s', outtake oneHeldState = some s' ∧
      (s'.blocks[(⟨0, 0⟩ : HeldBlock).blockIdx]?).map BlockState.filter =
        some outtakeRestoredFilter ∧
      outtakeRestoredFilter = spawnBlockFilter ∧
      (intakeMutBlock idPose heldDemoBlock).filter = ⟨0, 0⟩ :=
  claim_C10_filter_restoration oneHeldState [] ⟨0, 0⟩ heldDemoBlock idPose
    rfl rfl rfl rfl
